import Mathlib

/-!
Verification of the expose-tunnel relay/agent core.

This file gives a shallow embedding of the request-multiplexing relay and
its peer agent: the subdomain utilities, the authenticator, the relay's
upgrade admission, HTTP ingress, pending-request table and response
dispatch, and the agent's close/teardown and response construction.
Definitions are translated from the TypeScript sources
(src/server/relay-server.ts, src/client/tunnel-client.ts,
src/server/auth.ts, src/utils/subdomain.ts); theorems settle the frozen
claims about them.

Strings are modelled with Lean strings (the sources handle ASCII DNS
labels and header names, where JS UTF-16 lengths and Lean char counts
agree). Buffers are lists of byte values (each < 256). JS object maps
are association lists with string keys. Randomness is passed in
explicitly as a byte source, and JS timer handles are modelled by
explicit flags.
-/

namespace ExposeTunnel

/-- Association-list lookup, mirroring a JS Map.get with string keys. -/
def lookup {α : Type} (m : List (String × α)) (k : String) : Option α :=
  match m with
  | [] => none
  | (k', v) :: rest => if k' = k then some v else lookup rest k

/-- Association-list deletion, mirroring JS Map.delete (keys are unique in
a JS Map, so removing every binding of the key is the same operation). -/
def eraseKey {α : Type} (m : List (String × α)) (k : String) : List (String × α) :=
  match m with
  | [] => []
  | (k', v) :: rest => if k' = k then eraseKey rest k else (k', v) :: eraseKey rest k

theorem lookup_eraseKey_self {α : Type} (m : List (String × α)) (k : String) :
    lookup (eraseKey m k) k = none := by
  induction m with
  | nil => rfl
  | cons p rest ih =>
    by_cases h : p.1 = k
    · simpa [eraseKey, h] using ih
    · simpa [eraseKey, lookup, h] using ih

theorem lookup_eraseKey_ne {α : Type} (m : List (String × α)) (k k' : String)
    (h : k' ≠ k) : lookup (eraseKey m k) k' = lookup m k' := by
  induction m with
  | nil => rfl
  | cons p rest ih =>
    by_cases hp : p.1 = k
    · have hne : ¬ p.1 = k' := by
        rw [hp]; exact fun hh => h hh.symm
      have hkk : ¬ k = k' := fun hh => h hh.symm
      simp [eraseKey, hp, lookup, hne, hkk, ih]
    · by_cases hk' : p.1 = k'
      · simp [eraseKey, hp, lookup, hk', h, ih]
      · simp [eraseKey, hp, lookup, hk', ih]

/-! ## Subdomain utilities (src/utils/subdomain.ts) -/

/-- The alphabet `CHARS = 'abcdefghijklmnopqrstuvwxyz0123456789'` used by
generateSubdomain. -/
def CHARS : List Char :=
  ['a','b','c','d','e','f','g','h','i','j','k','l','m','n','o','p','q','r',
   's','t','u','v','w','x','y','z','0','1','2','3','4','5','6','7','8','9']

/-- A character allowed in a minted label: lowercase ASCII letter or digit. -/
def isLowerAlnum (c : Char) : Bool :=
  (('a' ≤ c) && (c ≤ 'z')) || (('0' ≤ c) && (c ≤ '9'))

/-- A character allowed anywhere in a requested label: lowercase letter,
digit, or hyphen. -/
def isSubdomainChar (c : Char) : Bool :=
  isLowerAlnum c || (c = '-')

/-- generateSubdomain from src/utils/subdomain.ts: eight characters, each
selected as `CHARS[bytes[i] % CHARS.length]` from eight random bytes. The
random byte draw is passed in as `bytes`. -/
def generateSubdomain (bytes : Fin 8 → Nat) : String :=
  String.mk ((List.finRange 8).map (fun i => CHARS.getD (bytes i % 36) 'a'))

/-- Match for the tail group of the regular expression
`[a-z0-9]([a-z0-9-]*[a-z0-9])?`: the tail is either empty or consists of
hyphen-or-alphanumeric characters ending in an alphanumeric one. -/
def regexTail : List Char → Bool
  | [] => true
  | [c] => isLowerAlnum c
  | c :: rest => isSubdomainChar c && regexTail rest

/-- Full match for the anchored regular expression
`^[a-z0-9]([a-z0-9-]*[a-z0-9])?$` of isValidSubdomain. -/
def matchesSubdomainRegex (cs : List Char) : Bool :=
  match cs with
  | [] => false
  | c :: rest => isLowerAlnum c && regexTail rest

/-- isValidSubdomain from src/utils/subdomain.ts: length in 3..63 and the
anchored regular expression above. -/
def isValidSubdomain (s : String) : Bool :=
  if s.length < 3 || s.length > 63 then false
  else matchesSubdomainRegex s.data

/-! ## Base64 transport coding

Request and response bodies cross the control channel as base64 text
(`Buffer.prototype.toString with the base64 coding` on the sending side,
`Buffer.from with the base64 coding` on the receiving side). The standard
RFC 4648 codec is embedded so the byte-for-byte passage of bodies can be
proved. -/

/-- The 64-character base64 alphabet. -/
def b64Alphabet : List Char :=
  ['A','B','C','D','E','F','G','H','I','J','K','L','M','N','O','P','Q','R',
   'S','T','U','V','W','X','Y','Z','a','b','c','d','e','f','g','h','i','j',
   'k','l','m','n','o','p','q','r','s','t','u','v','w','x','y','z','0','1',
   '2','3','4','5','6','7','8','9','+','/']

/-- Character for a six-bit group. -/
def sextetChar (n : Nat) : Char := b64Alphabet.getD n 'A'

/-- Six-bit group for an alphabet character. -/
def charSextet (c : Char) : Nat := b64Alphabet.indexOf c

/-- Base64 encoding of a byte list, three bytes to four characters, with
trailing padding on a partial final group. -/
def toBase64 : List Nat → List Char
  | [] => []
  | [b0] => [sextetChar (b0 / 4), sextetChar (b0 % 4 * 16), '=', '=']
  | [b0, b1] =>
      [sextetChar (b0 / 4), sextetChar (b0 % 4 * 16 + b1 / 16),
       sextetChar (b1 % 16 * 4), '=']
  | b0 :: b1 :: b2 :: rest =>
      sextetChar (b0 / 4) :: sextetChar (b0 % 4 * 16 + b1 / 16) ::
      sextetChar (b1 % 16 * 4 + b2 / 64) :: sextetChar (b2 % 64) :: toBase64 rest

/-- Base64 decoding, four characters to three bytes, honouring padding. -/
def ofBase64 : List Char → List Nat
  | c0 :: c1 :: c2 :: c3 :: rest =>
      let s0 := charSextet c0
      let s1 := charSextet c1
      if c2 = '=' then [s0 * 4 + s1 / 16]
      else
        let s2 := charSextet c2
        if c3 = '=' then [s0 * 4 + s1 / 16, s1 % 16 * 16 + s2 / 4]
        else
          (s0 * 4 + s1 / 16) :: (s1 % 16 * 16 + s2 / 4) ::
          (s2 % 4 * 64 + charSextet c3) :: ofBase64 rest
  | _ => []

theorem charSextet_sextetChar_fin : ∀ i : Fin 64, charSextet (sextetChar i.val) = i.val := by
  decide

theorem charSextet_sextetChar {n : Nat} (h : n < 64) :
    charSextet (sextetChar n) = n :=
  charSextet_sextetChar_fin ⟨n, h⟩

theorem sextetChar_ne_pad_fin : ∀ i : Fin 64, sextetChar i.val ≠ '=' := by
  decide

theorem sextetChar_ne_pad {n : Nat} (h : n < 64) : sextetChar n ≠ '=' :=
  sextetChar_ne_pad_fin ⟨n, h⟩

theorem ofBase64_cons4 (c0 c1 c2 c3 : Char) (rest : List Char)
    (h2 : c2 ≠ '=') (h3 : c3 ≠ '=') :
    ofBase64 (c0 :: c1 :: c2 :: c3 :: rest) =
      (charSextet c0 * 4 + charSextet c1 / 16) ::
      (charSextet c1 % 16 * 16 + charSextet c2 / 4) ::
      (charSextet c2 % 4 * 64 + charSextet c3) :: ofBase64 rest := by
  simp [ofBase64, h2, h3]

theorem ofBase64_pad2 (c0 c1 : Char) :
    ofBase64 [c0, c1, '=', '='] = [charSextet c0 * 4 + charSextet c1 / 16] := by
  simp [ofBase64]

theorem ofBase64_pad1 (c0 c1 c2 : Char) (h2 : c2 ≠ '=') :
    ofBase64 [c0, c1, c2, '='] =
      [charSextet c0 * 4 + charSextet c1 / 16,
       charSextet c1 % 16 * 16 + charSextet c2 / 4] := by
  simp [ofBase64, h2]

theorem ofBase64_toBase64 :
    ∀ bs : List Nat, (∀ b ∈ bs, b < 256) → ofBase64 (toBase64 bs) = bs
  | [], _ => by simp [toBase64, ofBase64]
  | [b0], h => by
    have hb0 : b0 < 256 := h b0 (by simp)
    have h1 : b0 / 4 < 64 := by omega
    have h2 : b0 % 4 * 16 < 64 := by omega
    have hstep : toBase64 [b0] =
        [sextetChar (b0 / 4), sextetChar (b0 % 4 * 16), '=', '='] := rfl
    rw [hstep, ofBase64_pad2, charSextet_sextetChar h1, charSextet_sextetChar h2,
      List.cons.injEq]
    exact ⟨by omega, rfl⟩
  | [b0, b1], h => by
    have hb0 : b0 < 256 := h b0 (by simp)
    have hb1 : b1 < 256 := h b1 (by simp)
    have h1 : b0 / 4 < 64 := by omega
    have h2 : b0 % 4 * 16 + b1 / 16 < 64 := by omega
    have h3 : b1 % 16 * 4 < 64 := by omega
    have hstep : toBase64 [b0, b1] =
        [sextetChar (b0 / 4), sextetChar (b0 % 4 * 16 + b1 / 16),
         sextetChar (b1 % 16 * 4), '='] := rfl
    rw [hstep, ofBase64_pad1 _ _ _ (sextetChar_ne_pad h3),
      charSextet_sextetChar h1, charSextet_sextetChar h2,
      charSextet_sextetChar h3, List.cons.injEq, List.cons.injEq]
    exact ⟨by omega, by omega, rfl⟩
  | b0 :: b1 :: b2 :: rest, h => by
    have hb0 : b0 < 256 := h b0 (by simp)
    have hb1 : b1 < 256 := h b1 (by simp)
    have hb2 : b2 < 256 := h b2 (by simp)
    have h1 : b0 / 4 < 64 := by omega
    have h2 : b0 % 4 * 16 + b1 / 16 < 64 := by omega
    have h3 : b1 % 16 * 4 + b2 / 64 < 64 := by omega
    have h4 : b2 % 64 < 64 := by omega
    have hrest : ∀ b ∈ rest, b < 256 := fun b hb => h b (by simp [hb])
    have ih := ofBase64_toBase64 rest hrest
    have hstep : toBase64 (b0 :: b1 :: b2 :: rest) =
        sextetChar (b0 / 4) :: sextetChar (b0 % 4 * 16 + b1 / 16) ::
        sextetChar (b1 % 16 * 4 + b2 / 64) :: sextetChar (b2 % 64) ::
        toBase64 rest := rfl
    rw [hstep, ofBase64_cons4 _ _ _ _ _ (sextetChar_ne_pad h3) (sextetChar_ne_pad h4),
      charSextet_sextetChar h1, charSextet_sextetChar h2,
      charSextet_sextetChar h3, charSextet_sextetChar h4, ih,
      List.cons.injEq, List.cons.injEq, List.cons.injEq]
    exact ⟨by omega, by omega, by omega, rfl⟩

/-! ## Authenticator (src/server/auth.ts) -/

/-- validateApiKey from src/server/auth.ts. The `key` argument is the raw
header value: `none` models an absent header, and the JS falsiness test
`!key` is true for both the absent and the empty-string value. -/
def validateApiKey (key : Option String) (validKeys : List String) : Bool :=
  match key with
  | none => false
  | some k => if k = "" || validKeys.length = 0 then false else validKeys.contains k

/-! ## Shared frame records (src/types.ts) -/

/-- TunnelRequest from src/types.ts: the frame the relay sends to the
agent for one ingress request. -/
structure TunnelRequestMsg where
  id : String
  method : String
  path : String
  headers : List (String × String)
  body : Option String
  deriving Repr, DecidableEq

/-- TunnelResponse from src/types.ts: the frame the agent sends back. -/
structure TunnelResponseMsg where
  id : String
  status : Nat
  headers : List (String × String)
  body : Option String
  deriving Repr, DecidableEq

/-! ## Relay server (src/server/relay-server.ts) -/

/-- MAX_BODY_SIZE constant: ten mebibytes. -/
def MAX_BODY_SIZE : Nat := 10 * 1024 * 1024

/-- REQUEST_TIMEOUT constant, in milliseconds: thirty seconds. -/
def REQUEST_TIMEOUT : Nat := 30000

/-- HEARTBEAT_INTERVAL constant, in milliseconds: thirty seconds. -/
def HEARTBEAT_INTERVAL : Nat := 30000

/-- One write of an HTTP response by the relay to a public caller. Each
constructor corresponds to one writeHead/end site in relay-server.ts;
proxied is the pass-through of a tunnel response in handleTunnelResponse,
every other constructor is a response the relay originates itself. -/
inductive RelayWrite
  | health (tunnelCount maxTunnels : Nat)
  | banner
  | notFound (subdomain : String)
  | disconnected
  | tooLarge
  | requestError
  | timedOut
  | shuttingDown
  | proxied (status : Nat) (headers : List (String × String)) (body : List Nat)
  deriving Repr, DecidableEq

/-- The HTTP status code carried by each write site. -/
def RelayWrite.status : RelayWrite → Nat
  | .health _ _ => 200
  | .banner => 200
  | .notFound _ => 404
  | .disconnected => 502
  | .tooLarge => 413
  | .requestError => 500
  | .timedOut => 504
  | .shuttingDown => 503
  | .proxied s _ _ => s

/-- The relay's view of one attached agent; wsOpen models
`readyState === WebSocket.OPEN` on the owning channel. -/
structure TunnelConn where
  wsOpen : Bool
  deriving Repr, DecidableEq

/-- A pending-table entry; resEnded models `res.writableEnded` on the
stored reply writer. -/
structure PendingEntry where
  resEnded : Bool
  deriving Repr, DecidableEq

/-- extractSubdomain from relay-server.ts: strip a port from the Host
header (the JS host.split with a colon keeps the segment before the first
colon, here takeWhile on the characters), return null on the bare base
domain, strip a trailing dot-domain suffix (the JS negative-index slice
drops the last domain.length + 1 characters), and return null for
unrelated hostnames. -/
def extractSubdomain (domain host : String) : Option String :=
  let hostname := host.data.takeWhile (fun c => c ≠ ':')
  if hostname = domain.data then none
  else if List.isSuffixOf ('.' :: domain.data) hostname then
    some (String.mk (hostname.take (hostname.length - (domain.data.length + 1))))
  else none

/-- serializeRequest from relay-server.ts: freeze an ingress request into
a TunnelRequest frame. The fresh correlation id (crypto.randomUUID in the
source) is passed in, and the header map is the already-flattened Node
header object. A non-empty body is carried as base64 text, an empty one
as null. -/
def serializeRequest (freshId method path : String)
    (headers : List (String × String)) (body : List Nat) : TunnelRequestMsg :=
  { id := freshId
    method := method
    path := path
    headers := headers
    body := if body.length > 0 then some (String.mk (toBase64 body)) else none }

/-- The body-read loop of handleHttpRequest: add each chunk length to the
running size and abort with 413 as soon as the running size exceeds
MAX_BODY_SIZE (once the request is destroyed no further chunk is seen).
Returns the aborted flag and the retained chunks. -/
def readBody (maxSize : Nat) : List (List Nat) → Nat → Bool × List (List Nat)
  | [], _ => (false, [])
  | c :: rest, size =>
    let size' := size + c.length
    if size' > maxSize then (true, [])
    else
      let r := readBody maxSize rest size'
      (r.1, c :: r.2)

/-- How the ingress body stream terminates: a normal end event or an
error event on the request. -/
inductive ReqTerminal
  | ended
  | errored
  deriving Repr, DecidableEq

/-- Everything observable from one run of handleHttpRequest: the
responses written to the caller, the frame sent to the agent (if any),
whether a pending-table entry was stored, and the registry afterwards. -/
structure IngressResult where
  writes : List RelayWrite
  frame : Option TunnelRequestMsg
  pendingCreated : Bool
  tunnelsAfter : List (String × TunnelConn)
  deriving Repr, DecidableEq

/-- handleHttpRequest from relay-server.ts. The guard
`!subdomain || subdomain === 'tunnel'` treats a null subdomain, an empty
one, and the literal label tunnel alike: they get the operational surface
(health endpoint or welcome banner). Otherwise the registry is consulted,
a closed channel is reaped with 502, the body is read under the 10 MiB
cap, and on a normal end the request frame is emitted and a pending entry
stored; an error event on a still-unanswered request writes 500. -/
def handleHttpRequest (domain : String) (maxTunnels : Nat)
    (tunnels : List (String × TunnelConn)) (host url method : String)
    (reqHeaders : List (String × String)) (freshId : String)
    (chunks : List (List Nat)) (terminal : ReqTerminal) : IngressResult :=
  let subdomain := extractSubdomain domain host
  let opSurface : IngressResult :=
    if url = "/health" then ⟨[.health tunnels.length maxTunnels], none, false, tunnels⟩
    else ⟨[.banner], none, false, tunnels⟩
  match subdomain with
  | none => opSurface
  | some s =>
    if s = "" ∨ s = "tunnel" then opSurface
    else
      match lookup tunnels s with
      | none => ⟨[.notFound s], none, false, tunnels⟩
      | some conn =>
        if conn.wsOpen = false then
          ⟨[.disconnected], none, false, eraseKey tunnels s⟩
        else
          let rb := readBody MAX_BODY_SIZE chunks 0
          if rb.1 then ⟨[.tooLarge], none, false, tunnels⟩
          else
            match terminal with
            | .ended =>
              ⟨[], some (serializeRequest freshId method url reqHeaders rb.2.flatten),
                true, tunnels⟩
            | .errored => ⟨[.requestError], none, false, tunnels⟩

/-- Decoding of a frame body on the relay side: base64 text to bytes,
null to the empty body (a bare res.end()). -/
def decodeBody : Option String → List Nat
  | none => []
  | some s => ofBase64 s.data

/-- Outcome of one response-dispatch or timeout step on the pending
table. -/
structure DispatchResult where
  pending : List (String × PendingEntry)
  write : Option RelayWrite
  clearedTimeout : Bool
  deriving Repr, DecidableEq

/-- handleTunnelResponse from relay-server.ts: an unknown correlation id
is silently discarded; a known one cancels its timeout, removes the
entry, and (when the reply writer is still open) writes the status, the
headers with transfer-encoding deleted, and the decoded body. -/
def handleTunnelResponse (pending : List (String × PendingEntry))
    (resp : TunnelResponseMsg) : DispatchResult :=
  match lookup pending resp.id with
  | none => ⟨pending, none, false⟩
  | some e =>
    let pending' := eraseKey pending resp.id
    if e.resEnded then ⟨pending', none, true⟩
    else
      ⟨pending',
       some (.proxied resp.status (eraseKey resp.headers "transfer-encoding")
         (decodeBody resp.body)),
       true⟩

/-- The 30-second timeout callback armed in handleHttpRequest: write 504
if the entry is still present and unanswered, then delete the entry. -/
def fireTimeout (pending : List (String × PendingEntry)) (id : String) :
    DispatchResult :=
  match lookup pending id with
  | none => ⟨eraseKey pending id, none, false⟩
  | some e =>
    if e.resEnded then ⟨eraseKey pending id, none, false⟩
    else ⟨eraseKey pending id, some .timedOut, false⟩

/-- The pending-table drain of RelayServer.stop: every still-writable
entry receives a 503 shutting-down response. -/
def stopDrain (pending : List (String × PendingEntry)) : List RelayWrite :=
  pending.filterMap (fun p => if p.2.resEnded then none else some .shuttingDown)

/-- Outcome of the upgrade gate installed in the RelayServer
constructor. -/
inductive UpgradeOutcome
  | destroyed
  | unauthorized
  | capacity
  | accepted
  deriving Repr, DecidableEq

/-- Observable result of one upgrade attempt: the gate outcome, the
registry afterwards, and whether a heartbeat scheduler was started. -/
structure UpgradeResult where
  outcome : UpgradeOutcome
  tunnelsAfter : List (String × TunnelConn)
  heartbeatStarted : Bool
  deriving Repr, DecidableEq

/-- The upgrade handler from the RelayServer constructor: destroy the
socket off the control path, 401 on a failed key check, 503 at the tunnel
cap, otherwise proceed to handleWebSocketConnection, which registers the
resolved label (here passed in as assigned) and starts its heartbeat. -/
def handleUpgrade (pathname : String) (apiKey : Option String)
    (apiKeys : List String) (maxTunnels : Nat)
    (tunnels : List (String × TunnelConn)) (assigned : String) : UpgradeResult :=
  if pathname ≠ "/tunnel" then ⟨.destroyed, tunnels, false⟩
  else if validateApiKey apiKey apiKeys = false then ⟨.unauthorized, tunnels, false⟩
  else if tunnels.length ≥ maxTunnels then ⟨.capacity, tunnels, false⟩
  else ⟨.accepted, (assigned, ⟨true⟩) :: tunnels, true⟩

/-- The label-resolution step of handleWebSocketConnection: take the
requested x-subdomain value when it is truthy, passes isValidSubdomain,
and is not a current registry key; otherwise repeat generateSubdomain
until an unused label appears. The random draws of successive attempts
are supplied by byteSource, and the probabilistic termination of the
do-while loop is the hypothesis that some attempt is unused. -/
def resolveSubdomain (requested : Option String)
    (tunnels : List (String × TunnelConn)) (byteSource : Nat → Fin 8 → Nat)
    (h : ∃ i, lookup tunnels (generateSubdomain (byteSource i)) = none) : String :=
  match requested with
  | some s =>
    if s ≠ "" ∧ isValidSubdomain s = true ∧ lookup tunnels s = none then s
    else generateSubdomain (byteSource (Nat.find h))
  | none => generateSubdomain (byteSource (Nat.find h))

/-! ## Agent (src/client/tunnel-client.ts) -/

/-- The response frame built by TunnelClient.proxyToLocal once a
responsive local origin has answered: the origin status (a missing status
code falls back to 500), the flattened origin header map, and the body as
base64 text or null when empty. -/
def proxyToLocal (reqId : String) (originStatus : Nat)
    (originHeaders : List (String × String)) (originBody : List Nat) :
    TunnelResponseMsg :=
  { id := reqId
    status := if originStatus = 0 then 500 else originStatus
    headers := originHeaders
    body :=
      if originBody.length > 0 then some (String.mk (toBase64 originBody))
      else none }

/-- Side effects of TunnelClient.close observable from outside: the call
into the owned socket and the close event emitted to listeners. -/
inductive ClientAction
  | wsClose
  | emitClose
  deriving Repr, DecidableEq

/-- Observable state of a TunnelClient: the closed flag, the heartbeat
handle, the owned socket (some true when present and OPEN), and the
public identity fields. -/
structure TunnelClientState where
  closed : Bool
  heartbeatInterval : Option Unit
  ws : Option Bool
  url : String
  subdomain : String
  deriving Repr, DecidableEq

/-- TunnelClient.close: set the closed flag, clear the heartbeat, close
the socket when it is open, drop the socket reference, and emit the close
event. -/
def TunnelClientState.close (s : TunnelClientState) :
    TunnelClientState × List ClientAction :=
  let socketActs : List ClientAction :=
    if s.ws = some true then [ClientAction.wsClose] else []
  ({ s with closed := true, heartbeatInterval := none, ws := none },
   socketActs ++ [ClientAction.emitClose])

/-! ## Helper lemmas -/

theorem isSubdomainChar_of_isLowerAlnum {c : Char} (h : isLowerAlnum c = true) :
    isSubdomainChar c = true := by
  simp [isSubdomainChar, h]

theorem regexTail_iff (cs : List Char) :
    regexTail cs = true ↔
      ((∀ c ∈ cs, isSubdomainChar c = true) ∧
       (∀ c, cs.getLast? = some c → isLowerAlnum c = true)) := by
  induction cs with
  | nil => simp [regexTail]
  | cons c rest ih =>
    cases rest with
    | nil =>
      simp only [regexTail, List.mem_singleton, List.getLast?_singleton]
      constructor
      · intro h
        exact ⟨fun x hx => by rw [hx]; exact isSubdomainChar_of_isLowerAlnum h,
               fun x hx => by cases hx; assumption⟩
      · intro ⟨_, h2⟩
        exact h2 c rfl
    | cons d tl =>
      rw [show regexTail (c :: d :: tl) = (isSubdomainChar c && regexTail (d :: tl))
        from rfl]
      simp only [Bool.and_eq_true, ih, List.getLast?_cons_cons, List.forall_mem_cons]
      tauto

theorem matchesSubdomainRegex_iff (cs : List Char) :
    matchesSubdomainRegex cs = true ↔
      (cs ≠ [] ∧ (∀ c ∈ cs, isSubdomainChar c = true) ∧
       (∀ c, cs.head? = some c → isLowerAlnum c = true) ∧
       (∀ c, cs.getLast? = some c → isLowerAlnum c = true)) := by
  cases cs with
  | nil => simp [matchesSubdomainRegex]
  | cons c rest =>
    rw [show matchesSubdomainRegex (c :: rest) = (isLowerAlnum c && regexTail rest)
      from rfl]
    rw [Bool.and_eq_true, regexTail_iff]
    have hsub : isLowerAlnum c = true → isSubdomainChar c = true :=
      isSubdomainChar_of_isLowerAlnum
    cases rest with
    | nil =>
      simp only [regexTail, List.getLast?_singleton, List.head?_cons,
        List.forall_mem_cons, List.not_mem_nil, false_implies, implies_true,
        and_true, Option.some.injEq, forall_eq', ne_eq, reduceCtorEq,
        not_false_iff, true_and]
      tauto
    | cons d tl =>
      simp only [List.getLast?_cons_cons, List.head?_cons, List.forall_mem_cons,
        Option.some.injEq, forall_eq', ne_eq, reduceCtorEq, not_false_iff,
        true_and]
      tauto

theorem isValidSubdomain_iff (s : String) :
    isValidSubdomain s = true ↔
      (3 ≤ s.length ∧ s.length ≤ 63 ∧
       (∀ c ∈ s.data, isSubdomainChar c = true) ∧
       (∀ c, s.data.head? = some c → isLowerAlnum c = true) ∧
       (∀ c, s.data.getLast? = some c → isLowerAlnum c = true)) := by
  unfold isValidSubdomain
  by_cases hlen : s.length < 3 || s.length > 63
  · rw [if_pos hlen]
    simp only [Bool.or_eq_true, decide_eq_true_eq] at hlen
    constructor
    · intro h; cases h
    · intro ⟨h1, h2, _⟩; omega
  · rw [if_neg hlen]
    simp only [Bool.or_eq_true, decide_eq_true_eq, not_or, not_lt] at hlen
    obtain ⟨h3, h63⟩ := hlen
    rw [matchesSubdomainRegex_iff]
    have hne : s.data ≠ [] := by
      intro hnil
      have : s.length = 0 := by
        show s.data.length = 0
        rw [hnil]; rfl
      omega
    constructor
    · intro ⟨_, h⟩
      exact ⟨h3, h63, h⟩
    · intro ⟨_, _, h⟩
      exact ⟨hne, h⟩

theorem isValidSubdomain_ne_empty {s : String} (h : isValidSubdomain s = true) :
    s ≠ "" := by
  have := (isValidSubdomain_iff s).1 h
  intro hs
  rw [hs] at this
  simp at this

/-- Each position of a minted label is one of the 36 characters of CHARS,
all of which are lowercase alphanumerics. -/
theorem isLowerAlnum_CHARS_getD : ∀ i : Fin 36, isLowerAlnum (CHARS.getD i.val 'a') = true := by
  decide

theorem generateSubdomain_length (bytes : Fin 8 → Nat) :
    (generateSubdomain bytes).length = 8 := by
  show ((List.finRange 8).map _).length = 8
  rw [List.length_map, List.length_finRange]

theorem generateSubdomain_chars (bytes : Fin 8 → Nat) :
    ∀ c ∈ (generateSubdomain bytes).data, isLowerAlnum c = true := by
  intro c hc
  have hc' : c ∈ (List.finRange 8).map (fun i => CHARS.getD (bytes i % 36) 'a') := hc
  rw [List.mem_map] at hc'
  obtain ⟨i, _, hci⟩ := hc'
  rw [← hci]
  exact isLowerAlnum_CHARS_getD ⟨bytes i % 36, Nat.mod_lt _ (by norm_num)⟩

/-! ## Claim theorems -/

/-- C7: isValidSubdomain accepts exactly the strings of length 3..63
whose characters are lowercase letters, digits, or hyphens, with an
alphanumeric first and last character; in particular lengths 3 and 63 are
accepted, lengths 2 and 64 rejected, leading or trailing hyphens
rejected, interior hyphens accepted, and uppercase rejected. -/
theorem c7_isValidSubdomain :
    (∀ s : String, isValidSubdomain s = true ↔
      (3 ≤ s.length ∧ s.length ≤ 63 ∧
       (∀ c ∈ s.data, isSubdomainChar c = true) ∧
       (∀ c, s.data.head? = some c → isLowerAlnum c = true) ∧
       (∀ c, s.data.getLast? = some c → isLowerAlnum c = true))) ∧
    isValidSubdomain "abc" = true ∧
    isValidSubdomain (String.mk (List.replicate 63 'a')) = true ∧
    isValidSubdomain "ab" = false ∧
    isValidSubdomain (String.mk (List.replicate 64 'a')) = false ∧
    isValidSubdomain "-ab" = false ∧
    isValidSubdomain "ab-" = false ∧
    isValidSubdomain "a-b" = true ∧
    isValidSubdomain "Abc" = false :=
  ⟨isValidSubdomain_iff, by decide, by decide, by decide, by decide, by decide,
   by decide, by decide, by decide⟩

/-- C10: validateApiKey returns true exactly for a present, non-empty key
that is a member of the configured list, and rejects every key when the
configured list is empty, so an empty secret set fails closed. -/
theorem c10_validateApiKey :
    (∀ (key : Option String) (validKeys : List String),
      validateApiKey key validKeys = true ↔
        ∃ k, key = some k ∧ k ≠ "" ∧ k ∈ validKeys) ∧
    (∀ key : Option String, validateApiKey key [] = false) := by
  constructor
  · intro key validKeys
    cases key with
    | none => simp [validateApiKey]
    | some k =>
      by_cases hk : k = ""
      · subst hk; simp [validateApiKey]
      · by_cases hlen : validKeys.length = 0
        · have hnil : validKeys = [] := List.length_eq_zero.mp hlen
          subst hnil; simp [validateApiKey, hk]
        · simp [validateApiKey, hk, hlen, List.elem_iff]
  · intro key
    cases key <;> simp [validateApiKey]

/-- C4: at handshake the requested x-subdomain label is assigned exactly
when it is present, satisfies the TunnelId syntax, and is free in the
registry; otherwise the assigned label is a generated one of exactly 8
lowercase-alphanumeric characters that is not a registry key immediately
before insertion. -/
theorem c4_resolveSubdomain (requested : Option String)
    (tunnels : List (String × TunnelConn)) (byteSource : Nat → Fin 8 → Nat)
    (h : ∃ i, lookup tunnels (generateSubdomain (byteSource i)) = none) :
    (∀ s, requested = some s → isValidSubdomain s = true →
       lookup tunnels s = none →
       resolveSubdomain requested tunnels byteSource h = s) ∧
    ((∀ s, requested = some s →
        ¬(isValidSubdomain s = true ∧ lookup tunnels s = none)) →
       (resolveSubdomain requested tunnels byteSource h).length = 8 ∧
       (∀ c ∈ (resolveSubdomain requested tunnels byteSource h).data,
          isLowerAlnum c = true) ∧
       lookup tunnels (resolveSubdomain requested tunnels byteSource h) = none) := by
  constructor
  · intro s hs hv hl
    subst hs
    have hcond : s ≠ "" ∧ isValidSubdomain s = true ∧ lookup tunnels s = none :=
      ⟨isValidSubdomain_ne_empty hv, hv, hl⟩
    simp only [resolveSubdomain]
    rw [if_pos hcond]
  · intro hno
    have hgen : resolveSubdomain requested tunnels byteSource h =
        generateSubdomain (byteSource (Nat.find h)) := by
      cases requested with
      | none => rfl
      | some s =>
        have hcond : ¬(s ≠ "" ∧ isValidSubdomain s = true ∧
            lookup tunnels s = none) := by
          intro ⟨_, hv, hl⟩
          exact hno s rfl ⟨hv, hl⟩
        simp only [resolveSubdomain]
        rw [if_neg hcond]
    rw [hgen]
    exact ⟨generateSubdomain_length _, generateSubdomain_chars _, Nat.find_spec h⟩

/-- C4 witness: with a free valid requested label the label is assigned;
with no requested label the minted one has 8 characters. -/
theorem c4_resolveSubdomain_witness :
    resolveSubdomain (some "myapp") [] (fun _ _ => 0) ⟨0, rfl⟩ = "myapp" ∧
    (resolveSubdomain none [] (fun _ _ => 0) ⟨0, rfl⟩).length = 8 :=
  ⟨(c4_resolveSubdomain (some "myapp") [] (fun _ _ => 0) ⟨0, rfl⟩).1 "myapp" rfl
     (by decide) rfl,
   ((c4_resolveSubdomain none [] (fun _ _ => 0) ⟨0, rfl⟩).2
     (fun s hs => by cases hs)).1⟩

/-- Under a tunnel-addressed hostname with a registered open channel,
handleHttpRequest reduces to its body-reading phase. -/
theorem handleHttpRequest_body_phase (domain : String) (maxTunnels : Nat)
    (tunnels : List (String × TunnelConn)) (host url method : String)
    (reqHeaders : List (String × String)) (freshId : String)
    (chunks : List (List Nat)) (terminal : ReqTerminal) (s : String)
    (conn : TunnelConn) (hsub : extractSubdomain domain host = some s)
    (h1 : s ≠ "") (h2 : s ≠ "tunnel") (hconn : lookup tunnels s = some conn)
    (hopen : conn.wsOpen = true) :
    handleHttpRequest domain maxTunnels tunnels host url method reqHeaders
        freshId chunks terminal =
      if (readBody MAX_BODY_SIZE chunks 0).1 then ⟨[.tooLarge], none, false, tunnels⟩
      else
        match terminal with
        | .ended =>
          ⟨[], some (serializeRequest freshId method url reqHeaders
              (readBody MAX_BODY_SIZE chunks 0).2.flatten), true, tunnels⟩
        | .errored => ⟨[.requestError], none, false, tunnels⟩ := by
  have hor : ¬(s = "" ∨ s = "tunnel") := by
    intro hc
    cases hc with
    | inl hc => exact h1 hc
    | inr hc => exact h2 hc
  simp only [handleHttpRequest, hsub]
  rw [if_neg hor]
  simp only [hconn, hopen]
  rfl

/-- C5: on an upgrade to the control path, a missing or non-member
x-api-key is rejected with 401 before the capacity check, a valid key at
the tunnel cap is rejected with 503, and in both rejection cases the
registry is unchanged and no heartbeat is started. -/
theorem c5_handleUpgrade (apiKey : Option String) (apiKeys : List String)
    (maxTunnels : Nat) (tunnels : List (String × TunnelConn))
    (assigned : String) :
    ((apiKey = none ∨ ∀ k, apiKey = some k → k ∉ apiKeys) →
       handleUpgrade "/tunnel" apiKey apiKeys maxTunnels tunnels assigned =
         ⟨.unauthorized, tunnels, false⟩) ∧
    (validateApiKey apiKey apiKeys = true → tunnels.length ≥ maxTunnels →
       handleUpgrade "/tunnel" apiKey apiKeys maxTunnels tunnels assigned =
         ⟨.capacity, tunnels, false⟩) := by
  constructor
  · intro hbad
    have hv : validateApiKey apiKey apiKeys = false := by
      cases apiKey with
      | none => rfl
      | some k =>
        rcases hbad with h | h
        · simp at h
        · have hk : k ∉ apiKeys := h k rfl
          simp only [validateApiKey]
          split
          · rfl
          · simp [List.elem_iff, hk]
    simp [handleUpgrade, hv]
  · intro hv hcap
    simp [handleUpgrade, hv, hcap]

/-- C5 witness: a wrong key is rejected 401 with the registry untouched,
and a valid key at the cap is rejected 503. -/
theorem c5_handleUpgrade_witness :
    handleUpgrade "/tunnel" (some "wrong_key") ["sk_test_key_123"] 10 [] "x" =
      ⟨.unauthorized, [], false⟩ ∧
    handleUpgrade "/tunnel" (some "sk_test_key_123") ["sk_test_key_123"] 0 [] "x" =
      ⟨.capacity, [], false⟩ :=
  ⟨(c5_handleUpgrade (some "wrong_key") ["sk_test_key_123"] 10 [] "x").1
     (Or.inr (fun k hk => by cases hk; decide)),
   (c5_handleUpgrade (some "sk_test_key_123") ["sk_test_key_123"] 0 [] "x").2
     (by decide) (by decide)⟩

/-- The body loop aborts exactly when the total size of the received
chunks exceeds the cap (the running check on nonnegative chunk sizes
trips on some prefix exactly when it trips on the whole stream). -/
theorem readBody_fst_iff (maxSize : Nat) :
    ∀ (chunks : List (List Nat)) (size : Nat), size ≤ maxSize →
      ((readBody maxSize chunks size).1 = true ↔
        size + (chunks.map List.length).sum > maxSize)
  | [], size, h => by
    simp only [readBody, List.map_nil, List.sum_nil, Nat.add_zero]
    constructor
    · intro hc; cases hc
    · intro hc; omega
  | c :: rest, size, _ => by
    by_cases hx : size + c.length > maxSize
    · simp only [readBody]
      rw [if_pos hx]
      simp only [List.map_cons, List.sum_cons]
      constructor
      · intro _; omega
      · intro _; trivial
    · have ih := readBody_fst_iff maxSize rest (size + c.length) (by omega)
      simp only [readBody]
      rw [if_neg hx]
      simp only [List.map_cons, List.sum_cons]
      rw [ih]
      omega

/-- C6: for an ingress request to a live tunnel the relay answers 413
exactly when the accumulated body size exceeds 10 MiB; in the rejection
case no frame is emitted and no pending entry is created, and a body at
or under the cap with a normal end is framed and stored as pending. -/
theorem c6_bodyCap (domain : String) (maxTunnels : Nat)
    (tunnels : List (String × TunnelConn)) (host url method : String)
    (reqHeaders : List (String × String)) (freshId : String)
    (chunks : List (List Nat)) (terminal : ReqTerminal) (s : String)
    (conn : TunnelConn) (hsub : extractSubdomain domain host = some s)
    (h1 : s ≠ "") (h2 : s ≠ "tunnel") (hconn : lookup tunnels s = some conn)
    (hopen : conn.wsOpen = true) :
    (RelayWrite.tooLarge ∈ (handleHttpRequest domain maxTunnels tunnels host url
        method reqHeaders freshId chunks terminal).writes ↔
      (chunks.map List.length).sum > MAX_BODY_SIZE) ∧
    ((chunks.map List.length).sum > MAX_BODY_SIZE →
      handleHttpRequest domain maxTunnels tunnels host url method reqHeaders
          freshId chunks terminal =
        ⟨[.tooLarge], none, false, tunnels⟩) ∧
    ((chunks.map List.length).sum ≤ MAX_BODY_SIZE → terminal = .ended →
      handleHttpRequest domain maxTunnels tunnels host url method reqHeaders
          freshId chunks terminal =
        ⟨[], some (serializeRequest freshId method url reqHeaders
            (readBody MAX_BODY_SIZE chunks 0).2.flatten), true, tunnels⟩) := by
  have hred := handleHttpRequest_body_phase domain maxTunnels tunnels host url
    method reqHeaders freshId chunks terminal s conn hsub h1 h2 hconn hopen
  have hiff := readBody_fst_iff MAX_BODY_SIZE chunks 0 (Nat.zero_le _)
  rw [Nat.zero_add] at hiff
  refine ⟨?_, ?_, ?_⟩
  · rw [hred]
    by_cases hb : (readBody MAX_BODY_SIZE chunks 0).1
    · rw [if_pos hb]
      simp only [List.mem_singleton, true_iff]
      exact hiff.mp hb
    · rw [if_neg hb]
      have hno : ¬(chunks.map List.length).sum > MAX_BODY_SIZE := by
        intro hc
        exact hb (hiff.mpr hc)
      cases terminal with
      | ended => simp [hno]
      | errored =>
        simp only [List.mem_singleton]
        constructor
        · intro hc; cases hc
        · intro hc; exact absurd hc hno
  · intro hover
    rw [hred, if_pos (hiff.mpr hover)]
  · intro hunder hterm
    subst hterm
    rw [hred, if_neg (by rw [hiff]; omega)]

/-- C6 witness: an empty body on a live tunnel is framed, stored as
pending, and not rejected. -/
theorem c6_bodyCap_witness :
    (¬(RelayWrite.tooLarge ∈ (handleHttpRequest "example.com" 10
        [("app", ⟨true⟩)] "app.example.com" "/x" "GET" [] "rid" [] .ended).writes)) ∧
    handleHttpRequest "example.com" 10 [("app", ⟨true⟩)] "app.example.com" "/x"
        "GET" [] "rid" [] .ended =
      ⟨[], some (serializeRequest "rid" "GET" "/x" []
          (readBody MAX_BODY_SIZE [] 0).2.flatten), true, [("app", ⟨true⟩)]⟩ :=
  ⟨fun hmem =>
     absurd ((c6_bodyCap "example.com" 10 [("app", ⟨true⟩)] "app.example.com"
        "/x" "GET" [] "rid" [] .ended "app" ⟨true⟩ rfl (by decide) (by decide)
        rfl rfl).1.mp hmem) (by decide),
   (c6_bodyCap "example.com" 10 [("app", ⟨true⟩)] "app.example.com"
      "/x" "GET" [] "rid" [] .ended "app" ⟨true⟩ rfl (by decide) (by decide)
      rfl rfl).2.2 (by decide) rfl⟩

/-- C2: per correlation id at most one response reaches the caller: the
first matching tunnel-response cancels the timeout, removes the pending
entry, and is delivered; a second response with the same id, or any
response with an unknown id, is silently discarded with no state change;
and when the 30-second timeout fires first the caller gets 504, the entry
is removed, and a late matching response is discarded. -/
theorem c2_singleDelivery (pending : List (String × PendingEntry)) (id : String)
    (e : PendingEntry) (resp resp' : TunnelResponseMsg)
    (hlook : lookup pending id = some e) (hopen : e.resEnded = false)
    (hid : resp.id = id) (hid' : resp'.id = id) :
    (handleTunnelResponse pending resp =
       ⟨eraseKey pending id,
        some (.proxied resp.status (eraseKey resp.headers "transfer-encoding")
          (decodeBody resp.body)),
        true⟩ ∧
     lookup (handleTunnelResponse pending resp).pending id = none) ∧
    (handleTunnelResponse (handleTunnelResponse pending resp).pending resp').write
      = none ∧
    (∀ (p : List (String × PendingEntry)) (r2 : TunnelResponseMsg),
       lookup p r2.id = none → handleTunnelResponse p r2 = ⟨p, none, false⟩) ∧
    (fireTimeout pending id = ⟨eraseKey pending id, some .timedOut, false⟩ ∧
     (handleTunnelResponse (fireTimeout pending id).pending resp').write = none) ∧
    REQUEST_TIMEOUT = 30000 := by
  have hstep : handleTunnelResponse pending resp =
      ⟨eraseKey pending id,
       some (.proxied resp.status (eraseKey resp.headers "transfer-encoding")
         (decodeBody resp.body)),
       true⟩ := by
    simp [handleTunnelResponse, hid, hlook, hopen]
  have hdiscard : ∀ (p : List (String × PendingEntry)) (r2 : TunnelResponseMsg),
      lookup p r2.id = none → handleTunnelResponse p r2 = ⟨p, none, false⟩ := by
    intro p r2 hnone
    simp [handleTunnelResponse, hnone]
  have htimeout : fireTimeout pending id =
      ⟨eraseKey pending id, some .timedOut, false⟩ := by
    simp [fireTimeout, hlook, hopen]
  refine ⟨⟨hstep, ?_⟩, ?_, hdiscard, ⟨htimeout, ?_⟩, rfl⟩
  · rw [hstep]
    exact lookup_eraseKey_self pending id
  · rw [hstep, hdiscard (eraseKey pending id) resp'
      (by rw [hid']; exact lookup_eraseKey_self pending id)]
  · rw [htimeout, hdiscard (eraseKey pending id) resp'
      (by rw [hid']; exact lookup_eraseKey_self pending id)]

/-- C2 witness: concrete run with one pending entry, a first delivered
response, a discarded duplicate, and timeout then late-response
discard. -/
theorem c2_singleDelivery_witness :
    handleTunnelResponse [("id1", PendingEntry.mk false)]
        ⟨"id1", 200, [], none⟩ =
      ⟨eraseKey [("id1", PendingEntry.mk false)] "id1",
       some (.proxied 200 (eraseKey [] "transfer-encoding") (decodeBody none)),
       true⟩ ∧
    (handleTunnelResponse
       (handleTunnelResponse [("id1", PendingEntry.mk false)]
         ⟨"id1", 200, [], none⟩).pending
       ⟨"id1", 201, [], none⟩).write = none ∧
    fireTimeout [("id1", PendingEntry.mk false)] "id1" =
      ⟨eraseKey [("id1", PendingEntry.mk false)] "id1", some .timedOut, false⟩ :=
  ⟨(c2_singleDelivery [("id1", PendingEntry.mk false)] "id1" ⟨false⟩
      ⟨"id1", 200, [], none⟩ ⟨"id1", 201, [], none⟩ rfl rfl rfl rfl).1.1,
   (c2_singleDelivery [("id1", PendingEntry.mk false)] "id1" ⟨false⟩
      ⟨"id1", 200, [], none⟩ ⟨"id1", 201, [], none⟩ rfl rfl rfl rfl).2.1,
   (c2_singleDelivery [("id1", PendingEntry.mk false)] "id1" ⟨false⟩
      ⟨"id1", 200, [], none⟩ ⟨"id1", 201, [], none⟩ rfl rfl rfl rfl).2.2.2.1.1⟩

/-- C1: when the agent reaches a responsive origin answering with a
status, headers, and body, the response the relay writes to the public
caller is exactly that status, the headers with only transfer-encoding
removed, and the identical body bytes. -/
theorem c1_roundTrip (pending : List (String × PendingEntry)) (reqId : String)
    (e : PendingEntry) (status : Nat) (headers : List (String × String))
    (body : List Nat) (hlook : lookup pending reqId = some e)
    (hopen : e.resEnded = false) (hstatus : status ≠ 0)
    (hbody : ∀ b ∈ body, b < 256) :
    (handleTunnelResponse pending (proxyToLocal reqId status headers body)).write
      = some (.proxied status (eraseKey headers "transfer-encoding") body) := by
  have hid : (proxyToLocal reqId status headers body).id = reqId := rfl
  simp only [handleTunnelResponse, hid, hlook, hopen, Bool.false_eq_true,
    if_false, proxyToLocal]
  rw [if_neg hstatus]
  by_cases hb : body.length > 0
  · rw [if_pos hb]
    have : decodeBody (some (String.mk (toBase64 body))) = body := by
      show ofBase64 (String.mk (toBase64 body)).data = body
      exact ofBase64_toBase64 body hbody
    rw [this]
  · rw [if_neg hb]
    have hnil : body = [] := List.length_eq_zero.mp (by omega)
    rw [hnil]
    rfl

/-- C1 witness: a two-byte body with a transfer-encoding header present
is delivered with that header stripped and the body intact. -/
theorem c1_roundTrip_witness :
    (handleTunnelResponse [("rid", PendingEntry.mk false)]
       (proxyToLocal "rid" 200
         [("content-type", "text/plain"), ("transfer-encoding", "chunked")]
         [104, 105])).write =
      some (.proxied 200
        (eraseKey [("content-type", "text/plain"),
          ("transfer-encoding", "chunked")] "transfer-encoding")
        [104, 105]) ∧
    eraseKey [("content-type", "text/plain"), ("transfer-encoding", "chunked")]
        "transfer-encoding" = [("content-type", "text/plain")] :=
  ⟨c1_roundTrip [("rid", PendingEntry.mk false)] "rid" ⟨false⟩ 200
     [("content-type", "text/plain"), ("transfer-encoding", "chunked")]
     [104, 105] rfl rfl (by decide) (by decide),
   by decide⟩

/-- C3 counterexample: the hostname tunnel.example.com has the form
s.baseDomain with label s = tunnel, yet with an empty registry the relay
serves the welcome banner (200) instead of looking the label up and
returning 404 naming it. -/
theorem c3_counterexample :
    extractSubdomain "example.com" "tunnel.example.com" = some "tunnel" ∧
    handleHttpRequest "example.com" 10 [] "tunnel.example.com" "/test" "GET" []
        "rid" [] .ended = ⟨[RelayWrite.banner], none, false, []⟩ ∧
    RelayWrite.banner.status = 200 := by
  refine ⟨by decide, by decide, rfl⟩

/-- C3 amended: for a hostname of the form s.baseDomain whose label is
neither empty nor the literal tunnel, the relay looks s up: absent gives
404 naming s, present and open proxies the request; a hostname that
yields no label, an empty label, or the label tunnel is served the
operational surface (health endpoint or banner). -/
theorem c3_dispatch (domain : String) (maxTunnels : Nat)
    (tunnels : List (String × TunnelConn)) (host url method : String)
    (reqHeaders : List (String × String)) (freshId : String)
    (chunks : List (List Nat)) (terminal : ReqTerminal) (s : String) :
    (extractSubdomain domain host = some s → s ≠ "" → s ≠ "tunnel" →
       lookup tunnels s = none →
       handleHttpRequest domain maxTunnels tunnels host url method reqHeaders
           freshId chunks terminal =
         ⟨[.notFound s], none, false, tunnels⟩) ∧
    (extractSubdomain domain host = some s → s ≠ "" → s ≠ "tunnel" →
       ∀ conn, lookup tunnels s = some conn → conn.wsOpen = true →
       (readBody MAX_BODY_SIZE chunks 0).1 = false → terminal = .ended →
       handleHttpRequest domain maxTunnels tunnels host url method reqHeaders
           freshId chunks terminal =
         ⟨[], some (serializeRequest freshId method url reqHeaders
             (readBody MAX_BODY_SIZE chunks 0).2.flatten), true, tunnels⟩) ∧
    (extractSubdomain domain host = none →
       handleHttpRequest domain maxTunnels tunnels host url method reqHeaders
           freshId chunks terminal =
         (if url = "/health"
          then ⟨[.health tunnels.length maxTunnels], none, false, tunnels⟩
          else ⟨[.banner], none, false, tunnels⟩)) ∧
    (extractSubdomain domain host = some s → (s = "" ∨ s = "tunnel") →
       handleHttpRequest domain maxTunnels tunnels host url method reqHeaders
           freshId chunks terminal =
         (if url = "/health"
          then ⟨[.health tunnels.length maxTunnels], none, false, tunnels⟩
          else ⟨[.banner], none, false, tunnels⟩)) := by
  refine ⟨?_, ?_, ?_, ?_⟩
  · intro hsub h1 h2 hnone
    have hor : ¬(s = "" ∨ s = "tunnel") := by
      intro hc; cases hc with
      | inl hc => exact h1 hc
      | inr hc => exact h2 hc
    simp only [handleHttpRequest, hsub]
    rw [if_neg hor]
    simp only [hnone]
  · intro hsub h1 h2 conn hconn hopen hsize hterm
    subst hterm
    rw [handleHttpRequest_body_phase domain maxTunnels tunnels host url method
      reqHeaders freshId chunks .ended s conn hsub h1 h2 hconn hopen]
    rw [hsize]
    simp
  · intro hsub
    simp only [handleHttpRequest, hsub]
  · intro hsub hor
    simp only [handleHttpRequest, hsub]
    rw [if_pos hor]

/-- C3 witness: a request for an unregistered label gets 404 naming it,
and a bare base-domain health request gets the health payload. -/
theorem c3_dispatch_witness :
    handleHttpRequest "example.com" 10 [] "unknown.example.com" "/test" "GET" []
        "rid" [] .ended = ⟨[.notFound "unknown"], none, false, []⟩ ∧
    handleHttpRequest "example.com" 10 [] "example.com" "/health" "GET" []
        "rid" [] .ended = ⟨[.health 0 10], none, false, []⟩ :=
  ⟨(c3_dispatch "example.com" 10 [] "unknown.example.com" "/test" "GET" []
      "rid" [] .ended "unknown").1 (by decide) (by decide) (by decide) rfl,
   by
    have h := (c3_dispatch "example.com" 10 [] "example.com" "/health" "GET" []
      "rid" [] .ended "").2.2.1 (by decide)
    rw [h]
    decide⟩

/-- C9 counterexample: an error event on a tunnel-addressed ingress
request makes the relay itself write status 500, which is outside the
claimed set of self-originated statuses 404, 413, 502, 503, 504. -/
theorem c9_counterexample :
    handleHttpRequest "example.com" 10 [("app", ⟨true⟩)] "app.example.com" "/x"
        "GET" [] "rid" [] .errored =
      ⟨[RelayWrite.requestError], none, false, [("app", ⟨true⟩)]⟩ ∧
    RelayWrite.requestError.status = 500 ∧
    ¬(RelayWrite.requestError.status = 404 ∨
      RelayWrite.requestError.status = 413 ∨
      RelayWrite.requestError.status = 502 ∨
      RelayWrite.requestError.status = 503 ∨
      RelayWrite.requestError.status = 504) := by
  refine ⟨by decide, rfl, by decide⟩

/-- C9 amended: for a tunnel-addressed request every self-originated
ingress status is 404, 413, 500, or 502; the timeout path writes only
504, the shutdown drain writes only 503, and response dispatch only
forwards origin responses. -/
theorem c9_selfStatuses (domain : String) (maxTunnels : Nat)
    (tunnels : List (String × TunnelConn)) (host url method : String)
    (reqHeaders : List (String × String)) (freshId : String)
    (chunks : List (List Nat)) (terminal : ReqTerminal) (s : String)
    (hsub : extractSubdomain domain host = some s) (h1 : s ≠ "")
    (h2 : s ≠ "tunnel") :
    (∀ w ∈ (handleHttpRequest domain maxTunnels tunnels host url method
        reqHeaders freshId chunks terminal).writes,
       w.status = 404 ∨ w.status = 413 ∨ w.status = 500 ∨ w.status = 502) ∧
    (∀ (pending : List (String × PendingEntry)) (id : String) (w : RelayWrite),
       (fireTimeout pending id).write = some w → w.status = 504) ∧
    (∀ (pending : List (String × PendingEntry)) (w : RelayWrite),
       w ∈ stopDrain pending → w.status = 503) ∧
    (∀ (pending : List (String × PendingEntry)) (resp : TunnelResponseMsg)
       (w : RelayWrite),
       (handleTunnelResponse pending resp).write = some w →
       ∃ st hs bd, w = .proxied st hs bd) := by
  have hor : ¬(s = "" ∨ s = "tunnel") := by
    intro hc; cases hc with
    | inl hc => exact h1 hc
    | inr hc => exact h2 hc
  refine ⟨?_, ?_, ?_, ?_⟩
  · have hcases :
        (handleHttpRequest domain maxTunnels tunnels host url method reqHeaders
          freshId chunks terminal).writes = [.notFound s] ∨
        (handleHttpRequest domain maxTunnels tunnels host url method reqHeaders
          freshId chunks terminal).writes = [.disconnected] ∨
        (handleHttpRequest domain maxTunnels tunnels host url method reqHeaders
          freshId chunks terminal).writes = [.tooLarge] ∨
        (handleHttpRequest domain maxTunnels tunnels host url method reqHeaders
          freshId chunks terminal).writes = [] ∨
        (handleHttpRequest domain maxTunnels tunnels host url method reqHeaders
          freshId chunks terminal).writes = [.requestError] := by
      simp only [handleHttpRequest, hsub]
      rw [if_neg hor]
      cases lookup tunnels s with
      | none => simp
      | some conn =>
        by_cases ho : conn.wsOpen = false
        · simp [ho]
        · by_cases hrb : (readBody MAX_BODY_SIZE chunks 0).1 = true
          · simp [ho, hrb]
          · cases terminal <;> simp [ho, hrb]
    intro w hw
    rcases hcases with h | h | h | h | h <;> rw [h] at hw <;> simp at hw <;>
      subst hw <;> simp [RelayWrite.status]
  · intro pending id w hw
    cases hl : lookup pending id with
    | none => simp [fireTimeout, hl] at hw
    | some e =>
      by_cases he : e.resEnded = true
      · simp [fireTimeout, hl, he] at hw
      · simp [fireTimeout, hl, he] at hw
        subst hw
        rfl
  · intro pending w hw
    simp only [stopDrain, List.mem_filterMap] at hw
    obtain ⟨p, _, hp⟩ := hw
    by_cases he : p.2.resEnded = true
    · simp [he] at hp
    · simp [he] at hp
      subst hp
      rfl
  · intro pending resp w hw
    cases hl : lookup pending resp.id with
    | none => simp [handleTunnelResponse, hl] at hw
    | some e =>
      by_cases he : e.resEnded = true
      · simp [handleTunnelResponse, hl, he] at hw
      · simp [handleTunnelResponse, hl, he] at hw
        subst hw
        exact ⟨_, _, _, rfl⟩

/-- C9 witness: the 404 on an unknown label is inside the amended status
set. -/
theorem c9_selfStatuses_witness :
    RelayWrite.status (RelayWrite.notFound "unknown") = 404 ∨
    RelayWrite.status (RelayWrite.notFound "unknown") = 413 ∨
    RelayWrite.status (RelayWrite.notFound "unknown") = 500 ∨
    RelayWrite.status (RelayWrite.notFound "unknown") = 502 :=
  (c9_selfStatuses "example.com" 10 [] "unknown.example.com" "/test" "GET" []
    "rid" [] .ended "unknown" (by decide) (by decide) (by decide)).1
    (RelayWrite.notFound "unknown") (by decide)

/-- C8 counterexample: from a connected client state, calling close twice
emits the close event twice, while a single call emits it once — so the
emitted event sequence of two calls differs from that of one call. -/
theorem c8_counterexample :
    ((⟨false, some (), some true, "https://app.example.com", "app"⟩ :
        TunnelClientState).close.2 ++
      (⟨false, some (), some true, "https://app.example.com", "app"⟩ :
        TunnelClientState).close.1.close.2).count ClientAction.emitClose = 2 ∧
    ((⟨false, some (), some true, "https://app.example.com", "app"⟩ :
        TunnelClientState).close.2).count ClientAction.emitClose = 1 := by
  decide

/-- C8 amended: a second close call leaves every observable state field
(closed flag, heartbeat handle, socket, url, subdomain) unchanged and
touches no socket, but emits the close event once more, so close is
idempotent on state while the close event fires once per call. -/
theorem c8_closeIdempotent (s : TunnelClientState) :
    s.close.1.close.1 = s.close.1 ∧
    s.close.1.close.2 = [ClientAction.emitClose] := by
  cases s
  exact ⟨rfl, rfl⟩

end ExposeTunnel
